import Mathlib

/-!
# Verification of the PhotoManager duplicate-folder analysis engine

Shallow embedding of `src/duplicateanalyzer.cpp` / `src/duplicateanalyzer.h`
(class `DuplicateAnalyzer`).  Qt containers are modelled as follows:

* `QString` as `String` (literal apostrophes inside strings are written with
  the escape `\x27`);
* `QStringList` / `QList` as `List`;
* `QHash<QString, V>` as an association list `List (String × V)` with
  insert-or-overwrite semantics (`insertKV`) and `QHash::value`'s
  value-initialised default on missing keys;
* `QSet<QString>` as `Finset String`;
* `QMultiMap<QString, _>.keys()` comparison as `Multiset String` equality
  (Qt returns the sorted key list with multiplicity);
* `double` arithmetic as exact rational (`ℚ`) arithmetic;
* `qint64` / `int` as `Int`.

The filesystem is modelled as a partial map from folder paths to directory
trees (`DirTree`), each file carrying the attributes the engine reads from it
(size, image dimensions read from the header, and the hex digest that
`calculatePartialHash` would produce from its bytes).  Cooperative
cancellation (the externally cleared `m_analysisRunning` flag, polled at
checkpoints) is modelled by `RunState`: a budget of checkpoints that still
observe the flag as `true`; the checkpoint after the budget is exhausted
observes `false`, and all later ones do too.
-/

/-- `DuplicateAnalyzer::ComparisonMode` (duplicateanalyzer.h:38). -/
inductive ComparisonMode where
  | Quick
  | Deep
deriving DecidableEq, Repr

/-- `DuplicateAnalyzer::DuplicateType` (duplicateanalyzer.h:46). -/
inductive DuplicateType where
  | ExactComplete
  | ExactFilesOnly
  | PartialDuplicate
deriving DecidableEq, Repr

/-- `DuplicateAnalyzer::FileInfo` (duplicateanalyzer.h:172).  The C++ field
`partialHash` is rendered `partHash` here; it is only filled in Deep mode. -/
structure FileInfo where
  fileSize : Int
  imageWidth : Int
  imageHeight : Int
  partHash : String
deriving DecidableEq, Repr

/-- `QHash<QString,V>::contains`. -/
def containsKey {α : Type} (m : List (String × α)) (k : String) : Bool :=
  m.any (fun kv => decide (kv.1 = k))

/-- `QHash<QString,V>` insert-or-overwrite (`m[k] = v`). -/
def insertKV {α : Type} (m : List (String × α)) (k : String) (v : α) :
    List (String × α) :=
  if containsKey m k then m.map (fun kv => if kv.1 = k then (k, v) else kv)
  else m ++ [(k, v)]

/-- `QHash<QString,V>` lookup. -/
def lookupKV {α : Type} (m : List (String × α)) (k : String) : Option α :=
  (m.find? (fun kv => decide (kv.1 = k))).map (fun kv => kv.2)

/-- `QHash<QString,FileInfo>::value(k)`: a missing key yields a
value-initialised `FileInfo` (all fields zero, empty hash). -/
def lookupInfo (m : List (String × FileInfo)) (k : String) : FileInfo :=
  (lookupKV m k).getD ⟨0, 0, 0, ""⟩

/-- `DuplicateAnalyzer::FolderContent` (duplicateanalyzer.h:182). -/
structure FolderContent where
  allFiles : List String
  allSubfolders : List String
  fileInfo : List (String × FileInfo)
  totalSize : Int
deriving DecidableEq, Repr

/-- A default-constructed `FolderContent` (as in `analyzeFolderContent`). -/
def emptyFC : FolderContent := ⟨[], [], [], 0⟩

/-- `DuplicateAnalyzer::DuplicateIssue` (duplicateanalyzer.h:55). -/
structure DuplicateIssue where
  type : DuplicateType
  primaryFolder : String
  duplicateFolder : String
  similarity : ℚ
  totalFiles : Int
  duplicateFiles : Int
  wastedSpace : Int
  description : String
  severity : String
deriving DecidableEq, Repr

/-- `PARTIAL_DUPLICATE_THRESHOLD = 0.90` (duplicateanalyzer.h:281), given
in lowest terms so the kernel can evaluate comparisons against it; the
first theorem below identifies it with 9/10. -/
def PARTIAL_DUPLICATE_THRESHOLD : ℚ := ⟨9, 10, by norm_num, by norm_num⟩

/-- `PARTIAL_HASH_SIZE = 16384` (duplicateanalyzer.h:283). -/
def PARTIAL_HASH_SIZE : Nat := 16384

/-- `qRound` on a nonneg/neg rational: `d >= 0 ? int(d + 0.5) : int(d - 0.5)`
where `int` truncates toward zero. -/
def qRound (x : ℚ) : Int :=
  if 0 ≤ x then ⌊x + 1 / 2⌋ else ⌈x - 1 / 2⌉

/-- `QFileInfo::fileName()`: the component after the last `/`. -/
def pathFileName (path : String) : String :=
  (path.splitOn "/").getLastD ""

/-- The content-key string built in `isExactFilesOnlyDuplicate` and
`calculateFileSimilarity` (duplicateanalyzer.cpp:799, 834):
`"%1x%2_%3"` from width, height and size, with `"_" + partialHash`
appended only in Deep mode. -/
def contentKey (mode : ComparisonMode) (info : FileInfo) : String :=
  toString info.imageWidth ++ "x" ++ toString info.imageHeight ++ "_" ++
    toString info.fileSize ++
    (if mode = ComparisonMode.Deep then "_" ++ info.partHash else "")

/-- The keys inserted into `signatures1`/`signatures2` of
`isExactFilesOnlyDuplicate`, one per entry of `allFiles` (with
multiplicity, as `QMultiMap::keys()` reports them). -/
def keyMultiset (mode : ComparisonMode) (c : FolderContent) : Multiset String :=
  (c.allFiles.map (fun p => contentKey mode (lookupInfo c.fileInfo p)) : List String)

/-- The `QSet<QString>` of content keys built in `calculateFileSimilarity`. -/
def signatureFinset (mode : ComparisonMode) (c : FolderContent) : Finset String :=
  (c.allFiles.map (fun p => contentKey mode (lookupInfo c.fileInfo p))).toFinset

/-- `QStringList::sort()`: insertion of one string into a sorted list. -/
def insertSorted (a : String) : List String → List String
  | [] => [a]
  | b :: l => if b < a then b :: insertSorted a l else a :: b :: l

/-- `QStringList::sort()` (ascending).  Only the fact that the result is a
canonical permutation of the input matters for the comparisons below. -/
def sortStrings : List String → List String
  | [] => []
  | a :: l => insertSorted a (sortStrings l)

/-- `DuplicateAnalyzer::areFilesIdentical` (duplicateanalyzer.cpp:864). -/
def areFilesIdentical (mode : ComparisonMode) (f1 f2 : FileInfo) : Bool :=
  if f1.fileSize ≠ f2.fileSize ∨ f1.imageWidth ≠ f2.imageWidth ∨
      f1.imageHeight ≠ f2.imageHeight then false
  else if mode = ComparisonMode.Deep then decide (f1.partHash = f2.partHash)
  else true

/-- `DuplicateAnalyzer::isExactCompleteDuplicate` (duplicateanalyzer.cpp:748). -/
def isExactCompleteDuplicate (mode : ComparisonMode) (c1 c2 : FolderContent) : Bool :=
  if c1.allFiles.length ≠ c2.allFiles.length ∨
      c1.allSubfolders.length ≠ c2.allSubfolders.length then false
  else if sortStrings c1.allFiles ≠ sortStrings c2.allFiles then false
  else if ¬ (sortStrings c1.allFiles).all
      (fun p => areFilesIdentical mode (lookupInfo c1.fileInfo p)
        (lookupInfo c2.fileInfo p)) then false
  else decide (sortStrings c1.allSubfolders = sortStrings c2.allSubfolders)

/-- `DuplicateAnalyzer::isExactFilesOnlyDuplicate` (duplicateanalyzer.cpp:786).
`signatures1.keys() == signatures2.keys()` is multiset equality of the
content keys; `!signatures1.isEmpty()` is nonemptiness. -/
def isExactFilesOnlyDuplicate (mode : ComparisonMode) (c1 c2 : FolderContent) : Bool :=
  if c1.allFiles.length ≠ c2.allFiles.length then false
  else decide (keyMultiset mode c1 = keyMultiset mode c2) &&
    decide (keyMultiset mode c1 ≠ 0)

/-- `DuplicateAnalyzer::calculateFileSimilarity` (duplicateanalyzer.cpp:818),
with `double` division idealised as exact rational division. -/
def calculateFileSimilarity (mode : ComparisonMode) (c1 c2 : FolderContent) : ℚ :=
  if c1.allFiles = [] ∧ c2.allFiles = [] then 1
  else if c1.allFiles = [] ∨ c2.allFiles = [] then 0
  else
    let s1 := signatureFinset mode c1
    let s2 := signatureFinset mode c2
    let inter := s1 ∩ s2
    let uni := s1 ∪ s2
    if uni = ∅ then 0
    else (inter.card : ℚ) / (uni.card : ℚ)

/-- `DuplicateAnalyzer::formatIssueDescription` (duplicateanalyzer.cpp:987). -/
def formatIssueDescription (issue : DuplicateIssue) : String :=
  let n1 := pathFileName issue.primaryFolder
  let n2 := pathFileName issue.duplicateFolder
  match issue.type with
  | DuplicateType.ExactComplete =>
      "\x27" ++ n1 ++ "\x27 and \x27" ++ n2 ++
        "\x27 are exact duplicates (same files and folder structure)"
  | DuplicateType.ExactFilesOnly =>
      "\x27" ++ n1 ++ "\x27 and \x27" ++ n2 ++
        "\x27 contain the same files in different folder structures"
  | DuplicateType.PartialDuplicate =>
      "\x27" ++ n1 ++ "\x27 and \x27" ++ n2 ++ "\x27 have " ++
        toString (qRound (issue.similarity * 100)) ++ "% file overlap"

/-- Builds a `DuplicateIssue` the way every branch of `compareFolders` does:
all fields first, then `description = formatIssueDescription(issue)`. -/
def mkIssue (t : DuplicateType) (p1 p2 : String) (sim : ℚ)
    (tot dup ws : Int) (sev : String) : DuplicateIssue :=
  let base : DuplicateIssue :=
    ⟨t, p1, p2, sim, tot, dup, ws, "", sev⟩
  { base with description := formatIssueDescription base }

/-- Swapping which folder is recorded as primary vs duplicate (the derived
`description` names the folders in the new order). -/
def swapPrimaryDuplicate (i : DuplicateIssue) : DuplicateIssue :=
  let j := { i with primaryFolder := i.duplicateFolder,
                    duplicateFolder := i.primaryFolder }
  { j with description := formatIssueDescription j }

/-- The classification part of `DuplicateAnalyzer::compareFolders`
(duplicateanalyzer.cpp:516-589): given the two folders' paths and contents,
produce at most one issue, trying ExactComplete, then ExactFilesOnly, then
the 90% partial-similarity rule. -/
def compareFoldersClassify (mode : ComparisonMode) (folder1 folder2 : String)
    (content1 content2 : FolderContent) : Option DuplicateIssue :=
  if folder1 = folder2 then none
  else if content1.allFiles = [] ∧ content2.allFiles = [] then none
  else if isExactCompleteDuplicate mode content1 content2 then
    some (mkIssue DuplicateType.ExactComplete folder1 folder2 1
      (content1.allFiles.length : Int) (content1.allFiles.length : Int)
      (min content1.totalSize content2.totalSize) "High")
  else if isExactFilesOnlyDuplicate mode content1 content2 then
    some (mkIssue DuplicateType.ExactFilesOnly folder1 folder2 1
      (content1.allFiles.length : Int) (content1.allFiles.length : Int)
      (min content1.totalSize content2.totalSize) "Medium")
  else if PARTIAL_DUPLICATE_THRESHOLD ≤ calculateFileSimilarity mode content1 content2 then
    some (mkIssue DuplicateType.PartialDuplicate folder1 folder2
      (calculateFileSimilarity mode content1 content2)
      (max (content1.allFiles.length : Int) (content2.allFiles.length : Int))
      (qRound (calculateFileSimilarity mode content1 content2 *
        (max (content1.allFiles.length : Int) (content2.allFiles.length : Int) : ℚ)))
      (qRound (calculateFileSimilarity mode content1 content2 *
        (min content1.totalSize content2.totalSize : ℚ)))
      "Low")
  else none

/-- The sequence of bytes fed to the MD5 accumulator by
`DuplicateAnalyzer::calculatePartialHash` (duplicateanalyzer.cpp:721) for a
readable file, given the file's bytes: `file.read(PARTIAL_HASH_SIZE)` reads
the first min(size, 16384) bytes; then, only when
`fileSize > PARTIAL_HASH_SIZE * 2`, it seeks to `fileSize - PARTIAL_HASH_SIZE`
and reads the last 16384 bytes.  The returned hash is the MD5 digest of
exactly this byte sequence. -/
def calculatePartHashData (file : List Nat) : List Nat :=
  let firstChunk := file.take PARTIAL_HASH_SIZE
  let lastChunk :=
    if PARTIAL_HASH_SIZE * 2 < file.length then
      file.drop (file.length - PARTIAL_HASH_SIZE)
    else []
  firstChunk ++ lastChunk

/-- Whether `calculatePartialHash` performs the seek-and-read of the last
16 KiB window for a file of the given size. -/
def lastWindowRead (fileLength : Nat) : Bool :=
  decide (PARTIAL_HASH_SIZE * 2 < fileLength)

/-- Attributes of one file as the engine reads them from the filesystem:
size (`QFileInfo::size`), header dimensions (`readImageDimensions`, zero when
unreadable), and the hex MD5 digest `calculatePartialHash` would produce from
its bytes. -/
structure FileData where
  fileSize : Int
  imageWidth : Int
  imageHeight : Int
  contentHash : String
deriving DecidableEq, Repr

/-- A directory tree: named files (in `QDir::Name` enumeration order, as
`entryList` yields them) and named subdirectories. -/
inductive DirTree where
  | node : List (String × FileData) → List (String × DirTree) → DirTree

/-- The filesystem: a partial map from absolute folder path to its tree. -/
abbrev FileSystem : Type := String → Option DirTree

/-- `SUPPORTED_EXTENSIONS` (duplicateanalyzer.cpp:51). -/
def SUPPORTED_EXTENSIONS : List String :=
  ["jpg", "jpeg", "png", "bmp", "gif", "tiff", "tif", "webp", "raw", "cr2",
   "nef", "arw"]

/-- The characters after the last `.` of the name, `none` when the name
has no dot. -/
def suffixChars : List Char → Option (List Char)
  | [] => none
  | c :: rest =>
    match suffixChars rest with
    | some s => some s
    | none => if c = '.' then some rest else none

/-- `QFileInfo::suffix()`: the part after the last dot, empty if no dot. -/
def fileSuffix (name : String) : String :=
  match suffixChars name.data with
  | none => ""
  | some s => String.mk s

/-- `QString::toLower()`. -/
def toLowerStr (s : String) : String :=
  String.mk (s.data.map Char.toLower)

/-- The `SUPPORTED_EXTENSIONS.contains(extension)` filter of
`scanFolderRecursive` (case-insensitive). -/
def isImageFile (name : String) : Bool :=
  SUPPORTED_EXTENSIONS.contains (toLowerStr (fileSuffix name))

/-- `QDir::relativeFilePath` restricted to paths below the base: the path of
an entry `name` inside the directory whose path relative to the scan root is
`rel` (empty at the root). -/
def joinRel (rel name : String) : String :=
  if rel = "" then name else rel ++ "/" ++ name

/-- The cooperative-cancellation state: `running` is the value the
`m_analysisRunning` flag will be observed to hold, and `gas` is how many more
checkpoints will still observe it `true` before the externally requested
cancellation becomes visible. -/
structure RunState where
  gas : Nat
  running : Bool
deriving DecidableEq, Repr

/-- One `if (!m_analysisRunning)` poll.  Returns the new state and whether
execution proceeds past the check. -/
def checkpoint (r : RunState) : RunState × Bool :=
  if ¬ r.running then (r, false)
  else if r.gas = 0 then ({ r with running := false }, false)
  else ({ r with gas := r.gas - 1 }, true)

/-- `DuplicateAnalyzer::analyzeFile` (duplicateanalyzer.cpp:688): size and
header dimensions always; the partial hash only in Deep mode. -/
def analyzeFile (mode : ComparisonMode) (fd : FileData) : FileInfo :=
  { fileSize := fd.fileSize, imageWidth := fd.imageWidth,
    imageHeight := fd.imageHeight,
    partHash := if mode = ComparisonMode.Deep then fd.contentHash else "" }

/-- The file loop of `scanFolderRecursive` (duplicateanalyzer.cpp:634-665):
cancellation is polled before each directory entry; image files append their
relative path to `allFiles`, store their `FileInfo`, and add to `totalSize`. -/
def scanFiles (mode : ComparisonMode) :
    List (String × FileData) → String → FolderContent → RunState →
    FolderContent × RunState
  | [], _, content, r => (content, r)
  | (name, fd) :: rest, rel, content, r =>
    match checkpoint r with
    | (r', false) => (content, r')
    | (r', true) =>
      if isImageFile name then
        let relPath := joinRel rel name
        let info := analyzeFile mode fd
        let content' :=
          { content with
            allFiles := content.allFiles ++ [relPath],
            fileInfo := insertKV content.fileInfo relPath info,
            totalSize := content.totalSize + info.fileSize }
        scanFiles mode rest rel content' r'
      else scanFiles mode rest rel content r'

mutual

/-- `DuplicateAnalyzer::scanFolderRecursive` (duplicateanalyzer.cpp:617):
scan this directory's files, then its subdirectories depth-first.  `rel` is
this directory's path relative to the scan root. -/
def scanTree (mode : ComparisonMode) : DirTree → String → FolderContent →
    RunState → FolderContent × RunState
  | DirTree.node files subdirs, rel, content, r =>
    let fr := scanFiles mode files rel content r
    if fr.2.running then scanSubdirs mode subdirs rel fr.1 fr.2
    else fr

/-- The subdirectory loop of `scanFolderRecursive` (duplicateanalyzer.cpp:668):
cancellation is polled before each subdirectory; the subfolder's relative path
is recorded, then it is scanned recursively.  (After a cancelled recursion the
C++ loop continues, but each further iteration's poll returns immediately, so
no further state changes occur; the model stops once cancellation is seen.) -/
def scanSubdirs (mode : ComparisonMode) : List (String × DirTree) → String →
    FolderContent → RunState → FolderContent × RunState
  | [], _, content, r => (content, r)
  | (name, t) :: rest, rel, content, r =>
    match checkpoint r with
    | (r', false) => (content, r')
    | (r', true) =>
      let relSub := joinRel rel name
      let content' :=
        { content with allSubfolders := content.allSubfolders ++ [relSub] }
      let tr := scanTree mode t relSub content' r'
      scanSubdirs mode rest rel tr.1 tr.2

end

/-- `DuplicateAnalyzer::analyzeFolderContent` (duplicateanalyzer.cpp:593):
an empty content for a nonexistent folder, else a recursive scan starting
from a default-constructed `FolderContent`. -/
def analyzeFolderContent (fs : FileSystem) (mode : ComparisonMode)
    (folderPath : String) (r : RunState) : FolderContent × RunState :=
  match fs folderPath with
  | none => (emptyFC, r)
  | some t => scanTree mode t "" emptyFC r

/-- The in-memory `m_folderContentCache` (`QHash<QString, FolderContent>`). -/
abbrev CacheMap : Type := List (String × FolderContent)

/-- One `if (!m_folderContentCache.contains(folder))` block of
`compareFolders` (duplicateanalyzer.cpp:524-529): scan the folder and store
whatever the scan returns into the cache — even a partial content whose
scan was interrupted by cancellation. -/
def ensureCached (fs : FileSystem) (mode : ComparisonMode) (p : String)
    (cache : CacheMap) (r : RunState) : CacheMap × RunState :=
  if containsKey cache p then (cache, r)
  else
    let cr := analyzeFolderContent fs mode p r
    (insertKV cache p cr.1, cr.2)

/-- `DuplicateAnalyzer::compareFolders` (duplicateanalyzer.cpp:516): ensure
both folders have cached content, then classify the pair, appending at
most one issue. -/
def compareFolders (fs : FileSystem) (mode : ComparisonMode)
    (folder1 folder2 : String) (cache : CacheMap)
    (issues : List DuplicateIssue) (r : RunState) :
    CacheMap × List DuplicateIssue × RunState :=
  if folder1 = folder2 then (cache, issues, r)
  else
    let step1 := ensureCached fs mode folder1 cache r
    let step2 := ensureCached fs mode folder2 step1.1 step1.2
    let content1 := (lookupKV step2.1 folder1).getD emptyFC
    let content2 := (lookupKV step2.1 folder2).getD emptyFC
    match compareFoldersClassify mode folder1 folder2 content1 content2 with
    | some issue => (step2.1, issues ++ [issue], step2.2)
    | none => (step2.1, issues, step2.2)

/-- The inner `j` loop of `DuplicateAnalyzer::analyzeFolderPairs`
(duplicateanalyzer.cpp:502): cancellation is polled before each pair. -/
def pairsInner (fs : FileSystem) (mode : ComparisonMode) (folder1 : String) :
    List String → CacheMap → List DuplicateIssue → RunState →
    CacheMap × List DuplicateIssue × RunState
  | [], cache, issues, r => (cache, issues, r)
  | folder2 :: rest, cache, issues, r =>
    match checkpoint r with
    | (r', false) => (cache, issues, r')
    | (r', true) =>
      let step := compareFolders fs mode folder1 folder2 cache issues r'
      pairsInner fs mode folder1 rest step.1 step.2.1 step.2.2

/-- `DuplicateAnalyzer::analyzeFolderPairs` (duplicateanalyzer.cpp:492): every
unordered pair `(i, j)`, `i < j`, with a cancellation poll before each outer
iteration; a cancellation observed inside the inner loop exits the whole
function. -/
def analyzeFolderPairs (fs : FileSystem) (mode : ComparisonMode) :
    List String → CacheMap → List DuplicateIssue → RunState →
    CacheMap × List DuplicateIssue × RunState
  | [], cache, issues, r => (cache, issues, r)
  | folder1 :: rest, cache, issues, r =>
    match checkpoint r with
    | (r', false) => (cache, issues, r')
    | (r', true) =>
      let step := pairsInner fs mode folder1 rest cache issues r'
      if step.2.2.running then
        analyzeFolderPairs fs mode rest step.1 step.2.1 step.2.2
      else step

/-- The counting loop of Phase 1 of `performAnalysis`
(duplicateanalyzer.cpp:430): one cancellation poll per folder; the work
estimate it computes has no further effect on the analysis state. -/
def phase1Count : List String → RunState → RunState × Bool
  | [], r => (r, true)
  | _ :: rest, r =>
    match checkpoint r with
    | (r', false) => (r', false)
    | (r', true) => phase1Count rest r'

/-- The per-entry record written by `saveFolderContentCache`
(duplicateanalyzer.cpp:1158-1180): folder path, folder modification time,
`allFiles`, `allSubfolders`, `totalSize`, and the `fileInfo` table. -/
structure CacheEntryRec where
  folderPath : String
  folderModTime : Int
  allFiles : List String
  allSubfolders : List String
  totalSize : Int
  fileInfoList : List (String × FileInfo)
deriving DecidableEq, Repr

/-- The cache file written by `saveFolderContentCache`
(duplicateanalyzer.cpp:1134): version tag, the `qint32` cast of the current
`ComparisonMode`, and the entries. -/
structure CacheFile where
  version : String
  mode : Int
  entries : List CacheEntryRec
deriving DecidableEq, Repr

/-- `static_cast<qint32>(mode)`: Quick = 0, Deep = 1. -/
def modeToInt : ComparisonMode → Int
  | ComparisonMode.Quick => 0
  | ComparisonMode.Deep => 1

/-- Folder modification times as `lastModified().toSecsSinceEpoch()`. -/
abbrev ModTimes : Type := String → Int

/-- `DuplicateAnalyzer::saveFolderContentCache` (duplicateanalyzer.cpp:1134):
writes the version tag, the mode marker, and one record per cached folder. -/
def saveFolderContentCache (mode : ComparisonMode) (mt : ModTimes)
    (cache : CacheMap) : CacheFile :=
  { version := "FolderContentCache_v2.0",
    mode := modeToInt mode,
    entries := cache.map (fun pc =>
      { folderPath := pc.1,
        folderModTime := mt pc.1,
        allFiles := pc.2.allFiles,
        allSubfolders := pc.2.allSubfolders,
        totalSize := pc.2.totalSize,
        fileInfoList := pc.2.fileInfo }) }

/-- `DuplicateAnalyzer::isFolderContentCacheValid` (duplicateanalyzer.cpp:1274):
the folder must exist, and if its top level currently holds at least one
supported image file while the cached content lists no files at all, the
entry is rejected. -/
def isFolderContentCacheValid (fs : FileSystem) (folderPath : String)
    (content : FolderContent) : Bool :=
  match fs folderPath with
  | none => false
  | some (DirTree.node files _) =>
    let hasImageFiles := files.any (fun f => isImageFile f.1)
    ¬ (hasImageFiles ∧ content.allFiles = [])

/-- The `FolderContent` rebuilt from one cache-file record by
`loadFolderContentCache` (duplicateanalyzer.cpp:1224-1247): the `fileInfo`
map is refilled entry by entry in stream order. -/
def contentOfEntry (e : CacheEntryRec) : FolderContent :=
  { allFiles := e.allFiles,
    allSubfolders := e.allSubfolders,
    fileInfo := e.fileInfoList.foldl (fun m kv => insertKV m kv.1 kv.2) [],
    totalSize := e.totalSize }

/-- `DuplicateAnalyzer::loadFolderContentCache` (duplicateanalyzer.cpp:1186):
a version-tag mismatch discards the whole file; each entry is kept only if
`isFolderContentCacheValid` accepts it, the folder still exists, and its
current modification time is at most the recorded one plus one second.  The
mode marker is read from the stream but never consulted. -/
def loadFolderContentCache (file : CacheFile) (fs : FileSystem)
    (mt : ModTimes) : CacheMap :=
  if file.version ≠ "FolderContentCache_v2.0" then []
  else
    file.entries.foldl (fun acc e =>
      let content := contentOfEntry e
      if isFolderContentCacheValid fs e.folderPath content ∧
          (fs e.folderPath).isSome ∧ mt e.folderPath ≤ e.folderModTime + 1 then
        insertKV acc e.folderPath content
      else acc) []

/-- The members of the analyzer that the engine's claims refer to:
`m_currentMode`, `m_duplicateIssues`, `m_folderContentCache`,
`m_analysisRunning` (duplicateanalyzer.h:266-278). -/
structure AnalyzerState where
  currentMode : ComparisonMode
  duplicateIssues : List DuplicateIssue
  folderContentCache : CacheMap
  analysisRunning : Bool

/-- `DuplicateAnalyzer::clearResults` (duplicateanalyzer.cpp:126): clears the
issue list; the folder content cache is deliberately kept. -/
def clearResults (s : AnalyzerState) : AnalyzerState :=
  { s with duplicateIssues := [] }

/-- `DuplicateAnalyzer::resetAnalysisState` (duplicateanalyzer.cpp:219):
hides the progress UI and clears the running flag; the issue list and the
cache are left as they are. -/
def resetAnalysisState (s : AnalyzerState) : AnalyzerState :=
  { s with analysisRunning := false }

/-- How a call to `startAnalysis` ends. -/
inductive RunOutcome where
  | insufficientFolders
  | cancelled
  | completed
deriving DecidableEq, Repr

/-- `DuplicateAnalyzer::performAnalysis` (duplicateanalyzer.cpp:408):
Phase 1 counts (one poll per folder), Phase 2/3 run `analyzeFolderPairs`,
and only a run that was never observed cancelled persists the cache with
`saveFolderContentCache` (when a project is open).  `disk` is the persisted
cache file, if any. -/
def performAnalysis (fs : FileSystem) (mt : ModTimes) (hasProject : Bool)
    (folders : List String) (s : AnalyzerState) (disk : Option CacheFile)
    (gas : Nat) : AnalyzerState × Option CacheFile × RunOutcome :=
  let s := { s with analysisRunning := true }
  if folders.isEmpty then (resetAnalysisState s, disk, RunOutcome.cancelled)
  else
    let r : RunState := { gas := gas, running := true }
    match phase1Count folders r with
    | (_, false) => (resetAnalysisState s, disk, RunOutcome.cancelled)
    | (r, true) =>
      let step := analyzeFolderPairs fs s.currentMode folders
        s.folderContentCache s.duplicateIssues r
      let s := { s with folderContentCache := step.1,
                        duplicateIssues := step.2.1 }
      if ¬ step.2.2.running then
        (resetAnalysisState s, disk, RunOutcome.cancelled)
      else
        let disk :=
          if hasProject then
            some (saveFolderContentCache s.currentMode mt s.folderContentCache)
          else disk
        ({ s with analysisRunning := false }, disk, RunOutcome.completed)

/-- `DuplicateAnalyzer::startAnalysis` (duplicateanalyzer.cpp:96): records the
mode, clears the previous results, and only then checks that the expanded
folder list has at least two folders; fewer than two folders end the call
with the insufficient-folders message box. -/
def startAnalysis (fs : FileSystem) (mt : ModTimes) (hasProject : Bool)
    (mode : ComparisonMode) (folders : List String) (s : AnalyzerState)
    (disk : Option CacheFile) (gas : Nat) :
    AnalyzerState × Option CacheFile × RunOutcome :=
  let s := clearResults { s with currentMode := mode }
  if folders.length < 2 then (s, disk, RunOutcome.insufficientFolders)
  else performAnalysis fs mt hasProject folders s disk gas

/-! ## Concrete data used by witnesses and counterexamples -/

/-- A folder holding a single image file (used as a concrete witness). -/
def oneFileFC : FolderContent :=
  { allFiles := ["x.jpg"], allSubfolders := [],
    fileInfo := [("x.jpg", ⟨100, 10, 10, ""⟩)], totalSize := 100 }

/-- A folder with no files but one subfolder (used as a counterexample). -/
def subOnlyFC : FolderContent :=
  { allFiles := [], allSubfolders := ["s"], fileInfo := [], totalSize := 0 }

/-- A sample issue sitting in the result list before a failed start. -/
def sampleIssue : DuplicateIssue :=
  mkIssue DuplicateType.ExactComplete "/p" "/q" 1 1 1 0 "High"

/-- Modification times: every folder was last modified at time 0. -/
def mtZero : ModTimes := fun _ => 0

/-- A one-file directory tree with the given name and content hash. -/
def oneFileTree (name : String) (hash : String) : DirTree :=
  DirTree.node [(name, ⟨100, 10, 10, hash⟩)] []

/-- Filesystem for the cancellation counterexample: three folders, the first
two identical, the third different. -/
def fsThree : FileSystem := fun p =>
  if p = "/a" then some (oneFileTree "x.jpg" "h1")
  else if p = "/b" then some (oneFileTree "x.jpg" "h1")
  else if p = "/c" then some (DirTree.node [("y.jpg", ⟨200, 20, 20, "h2"⟩)] [])
  else none

/-- Filesystem for the partial-scan counterexample: `/a` has two image
files, `/b` one. -/
def fsTwoFiles : FileSystem := fun p =>
  if p = "/a" then
    some (DirTree.node [("a.jpg", ⟨100, 10, 10, "ha"⟩),
                        ("b.jpg", ⟨200, 20, 20, "hb"⟩)] [])
  else if p = "/b" then some (oneFileTree "c.jpg" "hc")
  else none

/-- Filesystem for the cache-mode scenario: `/a` and `/b` hold files that
agree in size and dimensions but differ in content (different hashes). -/
def fsModePair : FileSystem := fun p =>
  if p = "/a" then some (oneFileTree "x.jpg" "h1")
  else if p = "/b" then some (oneFileTree "x.jpg" "h2")
  else none

/-- A cache file as saved by a completed Quick-mode run over `fsModePair`:
mode marker `0` (Quick), and per-folder signatures whose `partialHash`
fields are empty because Quick mode never computed them. -/
def quickCacheFile : CacheFile :=
  { version := "FolderContentCache_v2.0",
    mode := modeToInt ComparisonMode.Quick,
    entries :=
      [{ folderPath := "/a", folderModTime := 0, allFiles := ["x.jpg"],
         allSubfolders := [], totalSize := 100,
         fileInfoList := [("x.jpg", ⟨100, 10, 10, ""⟩)] },
       { folderPath := "/b", folderModTime := 0, allFiles := ["x.jpg"],
         allSubfolders := [], totalSize := 100,
         fileInfoList := [("x.jpg", ⟨100, 10, 10, ""⟩)] }] }

/-- An idle analyzer state with the given cache. -/
def idleState (mode : ComparisonMode) (cache : CacheMap) : AnalyzerState :=
  { currentMode := mode, duplicateIssues := [], folderContentCache := cache,
    analysisRunning := false }

/-- The invariant of claim C10: the key set of `fileInfo` coincides with the
set of paths listed in `allFiles`. -/
def FCInv (c : FolderContent) : Prop :=
  ∀ q : String, containsKey c.fileInfo q = true ↔ q ∈ c.allFiles

/-- The cache-wide form of the invariant. -/
def CacheInv (cache : CacheMap) : Prop :=
  ∀ p c, (p, c) ∈ cache → FCInv c

/-- A folder with two files sharing one signature (witness data). -/
def twoSameFC : FolderContent :=
  { allFiles := ["a.jpg", "b.jpg"], allSubfolders := [],
    fileInfo := [("a.jpg", ⟨100, 10, 10, ""⟩), ("b.jpg", ⟨100, 10, 10, ""⟩)],
    totalSize := 200 }

/-- A folder with one file of that same signature (witness data). -/
def oneSameFC : FolderContent :=
  { allFiles := ["z.jpg"], allSubfolders := [],
    fileInfo := [("z.jpg", ⟨100, 10, 10, ""⟩)], totalSize := 100 }

/-! ## Helper lemmas -/

theorem threshold_eq : PARTIAL_DUPLICATE_THRESHOLD = 9 / 10 := by
  unfold PARTIAL_DUPLICATE_THRESHOLD
  rw [Rat.mk'_eq_divInt, Rat.divInt_eq_div]
  norm_num

theorem bool_eq_of_iff {a b : Bool} (h : a = true ↔ b = true) : a = b := by
  cases a <;> cases b <;> simp_all

theorem insertSorted_perm (a : String) (l : List String) :
    List.Perm (insertSorted a l) (a :: l) := by
  induction l with
  | nil => exact List.Perm.refl _
  | cons b t ih =>
    unfold insertSorted
    split
    · exact (ih.cons b).trans (List.Perm.swap a b t)
    · exact List.Perm.refl _

theorem sortStrings_perm (l : List String) : List.Perm (sortStrings l) l := by
  induction l with
  | nil => exact List.Perm.refl _
  | cons a t ih =>
    exact (insertSorted_perm a (sortStrings t)).trans (ih.cons a)

theorem mem_sortStrings {p : String} {l : List String} :
    p ∈ sortStrings l ↔ p ∈ l :=
  (sortStrings_perm l).mem_iff

theorem areFilesIdentical_iff (mode : ComparisonMode) (f1 f2 : FileInfo) :
    areFilesIdentical mode f1 f2 = true ↔
      (f1.fileSize = f2.fileSize ∧ f1.imageWidth = f2.imageWidth ∧
       f1.imageHeight = f2.imageHeight ∧
       (mode = ComparisonMode.Deep → f1.partHash = f2.partHash)) := by
  unfold areFilesIdentical
  split_ifs with h1 h2
  · simp only [Bool.false_eq_true, false_iff]
    rintro ⟨ha, hb, hc, _⟩
    tauto
  · push_neg at h1
    simp only [decide_eq_true_eq]
    constructor
    · intro hh
      exact ⟨h1.1, h1.2.1, h1.2.2, fun _ => hh⟩
    · rintro ⟨_, _, _, hh⟩
      exact hh h2
  · push_neg at h1
    simp only [true_iff]
    exact ⟨h1.1, h1.2.1, h1.2.2, fun hm => absurd hm h2⟩

theorem areFilesIdentical_symm (mode : ComparisonMode) (f1 f2 : FileInfo) :
    areFilesIdentical mode f1 f2 = areFilesIdentical mode f2 f1 := by
  apply bool_eq_of_iff
  rw [areFilesIdentical_iff, areFilesIdentical_iff]
  constructor
  · rintro ⟨h1, h2, h3, h4⟩
    exact ⟨h1.symm, h2.symm, h3.symm, fun hm => (h4 hm).symm⟩
  · rintro ⟨h1, h2, h3, h4⟩
    exact ⟨h1.symm, h2.symm, h3.symm, fun hm => (h4 hm).symm⟩

theorem contentKey_eq_of_identical {mode : ComparisonMode} {f1 f2 : FileInfo}
    (h : areFilesIdentical mode f1 f2 = true) :
    contentKey mode f1 = contentKey mode f2 := by
  rcases (areFilesIdentical_iff mode f1 f2).1 h with ⟨h1, h2, h3, h4⟩
  unfold contentKey
  by_cases hm : mode = ComparisonMode.Deep
  · subst hm
    rw [h1, h2, h3, h4 rfl]
  · simp only [if_neg hm]
    rw [h1, h2, h3]

theorem exactComplete_iff (mode : ComparisonMode) (c1 c2 : FolderContent) :
    isExactCompleteDuplicate mode c1 c2 = true ↔
      (c1.allFiles.length = c2.allFiles.length ∧
       c1.allSubfolders.length = c2.allSubfolders.length ∧
       sortStrings c1.allFiles = sortStrings c2.allFiles ∧
       (∀ p ∈ sortStrings c1.allFiles,
         areFilesIdentical mode (lookupInfo c1.fileInfo p)
           (lookupInfo c2.fileInfo p) = true) ∧
       sortStrings c1.allSubfolders = sortStrings c2.allSubfolders) := by
  unfold isExactCompleteDuplicate
  split_ifs with h1 h2 h3
  · simp only [false_iff]
    rintro ⟨ha, hb, _, _, _⟩
    tauto
  · simp only [false_iff]
    rintro ⟨_, _, hc, _, _⟩
    exact h2 hc
  · push_neg at h1
    rw [List.all_eq_true] at h3
    simp only [decide_eq_true_eq]
    constructor
    · intro he
      exact ⟨h1.1, h1.2, not_not.1 h2, h3, he⟩
    · rintro ⟨_, _, _, _, he⟩
      exact he
  · simp only [false_iff]
    rintro ⟨_, _, _, hd, _⟩
    rw [List.all_eq_true] at h3
    exact h3 hd

theorem exactFilesOnly_iff (mode : ComparisonMode) (c1 c2 : FolderContent) :
    isExactFilesOnlyDuplicate mode c1 c2 = true ↔
      (c1.allFiles.length = c2.allFiles.length ∧
       keyMultiset mode c1 = keyMultiset mode c2 ∧
       keyMultiset mode c1 ≠ 0) := by
  unfold isExactFilesOnlyDuplicate
  split_ifs with h1 <;> simp_all

theorem exactComplete_true_swap {mode : ComparisonMode} {c1 c2 : FolderContent}
    (h : isExactCompleteDuplicate mode c1 c2 = true) :
    isExactCompleteDuplicate mode c2 c1 = true := by
  rw [exactComplete_iff] at h ⊢
  rcases h with ⟨h1, h2, h3, h4, h5⟩
  refine ⟨h1.symm, h2.symm, h3.symm, ?_, h5.symm⟩
  intro p hp
  have hp1 : p ∈ sortStrings c1.allFiles := by rw [h3]; exact hp
  rw [areFilesIdentical_symm]
  exact h4 p hp1

theorem exactComplete_symm (mode : ComparisonMode) (c1 c2 : FolderContent) :
    isExactCompleteDuplicate mode c2 c1 = isExactCompleteDuplicate mode c1 c2 :=
  bool_eq_of_iff ⟨exactComplete_true_swap, exactComplete_true_swap⟩

theorem exactFilesOnly_true_swap {mode : ComparisonMode} {c1 c2 : FolderContent}
    (h : isExactFilesOnlyDuplicate mode c1 c2 = true) :
    isExactFilesOnlyDuplicate mode c2 c1 = true := by
  rw [exactFilesOnly_iff] at h ⊢
  rcases h with ⟨h1, h2, h3⟩
  exact ⟨h1.symm, h2.symm, by rw [← h2]; exact h3⟩

theorem exactFilesOnly_symm (mode : ComparisonMode) (c1 c2 : FolderContent) :
    isExactFilesOnlyDuplicate mode c2 c1 = isExactFilesOnlyDuplicate mode c1 c2 :=
  bool_eq_of_iff ⟨exactFilesOnly_true_swap, exactFilesOnly_true_swap⟩

theorem calcSim_symm (mode : ComparisonMode) (c1 c2 : FolderContent) :
    calculateFileSimilarity mode c2 c1 = calculateFileSimilarity mode c1 c2 := by
  unfold calculateFileSimilarity
  by_cases h1 : c1.allFiles = [] <;> by_cases h2 : c2.allFiles = [] <;>
    simp [h1, h2, Finset.inter_comm, Finset.union_comm]

theorem exactComplete_length {mode : ComparisonMode} {c1 c2 : FolderContent}
    (h : isExactCompleteDuplicate mode c1 c2 = true) :
    c1.allFiles.length = c2.allFiles.length :=
  ((exactComplete_iff mode c1 c2).1 h).1

theorem exactFilesOnly_length {mode : ComparisonMode} {c1 c2 : FolderContent}
    (h : isExactFilesOnlyDuplicate mode c1 c2 = true) :
    c1.allFiles.length = c2.allFiles.length :=
  ((exactFilesOnly_iff mode c1 c2).1 h).1

theorem formatDesc_congr {i j : DuplicateIssue} (ht : i.type = j.type)
    (hp : i.primaryFolder = j.primaryFolder)
    (hd : i.duplicateFolder = j.duplicateFolder)
    (hs : i.similarity = j.similarity) :
    formatIssueDescription i = formatIssueDescription j := by
  unfold formatIssueDescription
  rw [ht, hp, hd, hs]

theorem swap_mkIssue (t : DuplicateType) (p1 p2 : String) (s : ℚ)
    (a b w : Int) (v : String) :
    swapPrimaryDuplicate (mkIssue t p1 p2 s a b w v) =
      mkIssue t p2 p1 s a b w v := by
  simp only [swapPrimaryDuplicate, mkIssue, DuplicateIssue.mk.injEq,
    true_and, and_true]
  exact formatDesc_congr rfl rfl rfl rfl

theorem signatureFinset_nonempty {mode : ComparisonMode} {c : FolderContent}
    (h : c.allFiles ≠ []) : (signatureFinset mode c).Nonempty := by
  rcases List.exists_mem_of_ne_nil _ h with ⟨p, hp⟩
  refine ⟨contentKey mode (lookupInfo c.fileInfo p), ?_⟩
  unfold signatureFinset
  rw [List.mem_toFinset, List.mem_map]
  exact ⟨p, hp, rfl⟩

theorem signatureFinset_congr {mode : ComparisonMode} {c1 c2 : FolderContent}
    (hperm : List.Perm c1.allFiles c2.allFiles)
    (hkey : ∀ p ∈ c1.allFiles,
      contentKey mode (lookupInfo c1.fileInfo p) =
        contentKey mode (lookupInfo c2.fileInfo p)) :
    signatureFinset mode c1 = signatureFinset mode c2 := by
  unfold signatureFinset
  have hmap : c1.allFiles.map (fun p => contentKey mode (lookupInfo c1.fileInfo p)) =
      c1.allFiles.map (fun p => contentKey mode (lookupInfo c2.fileInfo p)) :=
    List.map_congr_left hkey
  rw [hmap]
  exact List.toFinset_eq_of_perm _ _ (hperm.map _)

theorem length_sortStrings (l : List String) :
    (sortStrings l).length = l.length :=
  (sortStrings_perm l).length_eq

theorem calcSim_eq_one_of_finset_eq {mode : ComparisonMode}
    {c1 c2 : FolderContent} (h1 : c1.allFiles ≠ []) (h2 : c2.allFiles ≠ [])
    (hs : signatureFinset mode c1 = signatureFinset mode c2) :
    calculateFileSimilarity mode c1 c2 = 1 := by
  unfold calculateFileSimilarity
  rw [if_neg (by tauto), if_neg (by tauto)]
  simp only [← hs, Finset.inter_self, Finset.union_self]
  have hne : (signatureFinset mode c1).Nonempty := signatureFinset_nonempty h1
  rw [if_neg (Finset.nonempty_iff_ne_empty.1 hne)]
  have hcard : ((signatureFinset mode c1).card : ℚ) ≠ 0 := by
    rw [Nat.cast_ne_zero]
    exact Finset.card_ne_zero_of_mem hne.choose_spec
  exact div_self hcard

theorem calcSim_of_exactComplete {mode : ComparisonMode} {c1 c2 : FolderContent}
    (h : isExactCompleteDuplicate mode c1 c2 = true) :
    calculateFileSimilarity mode c1 c2 = 1 := by
  rcases (exactComplete_iff mode c1 c2).1 h with ⟨h1, _, h3, h4, _⟩
  by_cases he : c1.allFiles = []
  · have he2 : c2.allFiles = [] := by
      rw [← List.length_eq_zero, ← h1, he]
      rfl
    unfold calculateFileSimilarity
    rw [if_pos ⟨he, he2⟩]
  · have he2 : c2.allFiles ≠ [] := by
      intro h0
      exact he (by rw [← List.length_eq_zero, h1, h0]; rfl)
    have hperm : List.Perm c1.allFiles c2.allFiles :=
      ((sortStrings_perm c1.allFiles).symm.trans (h3 ▸ List.Perm.refl _)).trans
        (sortStrings_perm c2.allFiles)
    have hkey : ∀ p ∈ c1.allFiles,
        contentKey mode (lookupInfo c1.fileInfo p) =
          contentKey mode (lookupInfo c2.fileInfo p) := by
      intro p hp
      exact contentKey_eq_of_identical (h4 p (mem_sortStrings.2 hp))
    exact calcSim_eq_one_of_finset_eq he he2 (signatureFinset_congr hperm hkey)

theorem calcSim_of_exactFilesOnly {mode : ComparisonMode} {c1 c2 : FolderContent}
    (h : isExactFilesOnlyDuplicate mode c1 c2 = true) :
    calculateFileSimilarity mode c1 c2 = 1 := by
  rcases (exactFilesOnly_iff mode c1 c2).1 h with ⟨h1, h2, h3⟩
  have he : c1.allFiles ≠ [] := by
    intro h0
    apply h3
    unfold keyMultiset
    rw [h0]
    rfl
  have he2 : c2.allFiles ≠ [] := by
    intro h0
    exact he (by rw [← List.length_eq_zero, h1, h0]; rfl)
  have hs : signatureFinset mode c1 = signatureFinset mode c2 := by
    unfold signatureFinset
    have h5 := congrArg Multiset.toFinset h2
    rw [keyMultiset, keyMultiset] at h5
    exact h5
  exact calcSim_eq_one_of_finset_eq he he2 hs

theorem calcSim_eq_zero_of_disjoint {mode : ComparisonMode}
    {c1 c2 : FolderContent}
    (h : signatureFinset mode c1 ∩ signatureFinset mode c2 = ∅)
    (h1 : c1.allFiles ≠ []) (h2 : c2.allFiles ≠ []) :
    calculateFileSimilarity mode c1 c2 = 0 := by
  unfold calculateFileSimilarity
  rw [if_neg (by tauto), if_neg (by tauto)]
  dsimp only
  split
  · rfl
  · rw [h]
    simp

theorem classify_none_of_lt {mode : ComparisonMode} {f1 f2 : String}
    {c1 c2 : FolderContent}
    (hlt : calculateFileSimilarity mode c1 c2 < PARTIAL_DUPLICATE_THRESHOLD) :
    compareFoldersClassify mode f1 f2 c1 c2 = none := by
  unfold compareFoldersClassify
  by_cases hp : f1 = f2
  · rw [if_pos hp]
  · rw [if_neg hp]
    by_cases he : c1.allFiles = [] ∧ c2.allFiles = []
    · rw [if_pos he]
    · rw [if_neg he]
      have hEC : ¬ isExactCompleteDuplicate mode c1 c2 = true := by
        intro h
        rw [calcSim_of_exactComplete h] at hlt
        rw [threshold_eq] at hlt; norm_num at hlt
      have hEFO : ¬ isExactFilesOnlyDuplicate mode c1 c2 = true := by
        intro h
        rw [calcSim_of_exactFilesOnly h] at hlt
        rw [threshold_eq] at hlt; norm_num at hlt
      rw [if_neg hEC, if_neg hEFO, if_neg (not_le.2 hlt)]


/-! ## Claim theorems -/

/-- C1: For every pair of FolderContent values A and B and every
ComparisonMode, classifying (A, B) and classifying (B, A) yield the same
outcome: either both produce no issue, or both produce an issue with the
same type and the same similarity (and the same derived counts, wasted
space and severity), differing only in which folder path is recorded as
primaryFolder versus duplicateFolder (the derived description naming the
folders in the corresponding order). -/
theorem spec_C1 (mode : ComparisonMode) (f1 f2 : String)
    (c1 c2 : FolderContent) :
    compareFoldersClassify mode f2 f1 c2 c1 =
      Option.map swapPrimaryDuplicate (compareFoldersClassify mode f1 f2 c1 c2) := by
  unfold compareFoldersClassify
  by_cases hp : f1 = f2
  · subst hp
    simp
  · have hp' : ¬ f2 = f1 := fun h => hp h.symm
    rw [if_neg hp, if_neg hp']
    by_cases he : c1.allFiles = [] ∧ c2.allFiles = []
    · rw [if_pos he, if_pos ⟨he.2, he.1⟩]
      rfl
    · have he' : ¬ (c2.allFiles = [] ∧ c1.allFiles = []) :=
        fun h => he ⟨h.2, h.1⟩
      rw [if_neg he, if_neg he']
      by_cases hEC : isExactCompleteDuplicate mode c1 c2 = true
      · have hEC' : isExactCompleteDuplicate mode c2 c1 = true :=
          exactComplete_true_swap hEC
        rw [if_pos hEC, if_pos hEC', Option.map_some', swap_mkIssue,
          exactComplete_length hEC, min_comm]
      · have hEC' : ¬ isExactCompleteDuplicate mode c2 c1 = true := by
          rw [exactComplete_symm]
          exact hEC
        rw [if_neg hEC, if_neg hEC']
        by_cases hEFO : isExactFilesOnlyDuplicate mode c1 c2 = true
        · have hEFO' : isExactFilesOnlyDuplicate mode c2 c1 = true :=
            exactFilesOnly_true_swap hEFO
          rw [if_pos hEFO, if_pos hEFO', Option.map_some', swap_mkIssue,
            exactFilesOnly_length hEFO, min_comm]
        · have hEFO' : ¬ isExactFilesOnlyDuplicate mode c2 c1 = true := by
            rw [exactFilesOnly_symm]
            exact hEFO
          rw [if_neg hEFO, if_neg hEFO', calcSim_symm]
          by_cases hth : PARTIAL_DUPLICATE_THRESHOLD ≤
              calculateFileSimilarity mode c1 c2
          · rw [if_pos hth, if_pos hth, Option.map_some', swap_mkIssue]
            simp [max_comm, min_comm]
          · rw [if_neg hth, if_neg hth]
            rfl

/-- C2 (amended): a pair satisfying the ExactComplete predicate is never
reported as ExactFilesOnly or PartialDuplicate; and when the pair has
distinct paths and at least one file, it is reported as ExactComplete.
(A pair of file-empty folders satisfies the predicate but produces no
issue at all, because the both-empty skip rule fires first.) -/
theorem spec_C2 (mode : ComparisonMode) (f1 f2 : String) (c1 c2 : FolderContent)
    (hEC : isExactCompleteDuplicate mode c1 c2 = true) :
    (∀ i, compareFoldersClassify mode f1 f2 c1 c2 = some i →
      i.type = DuplicateType.ExactComplete) ∧
    (f1 ≠ f2 → c1.allFiles ≠ [] →
      compareFoldersClassify mode f1 f2 c1 c2 =
        some (mkIssue DuplicateType.ExactComplete f1 f2 1
          (c1.allFiles.length : Int) (c1.allFiles.length : Int)
          (min c1.totalSize c2.totalSize) "High")) := by
  constructor
  · intro i hi
    unfold compareFoldersClassify at hi
    by_cases hp : f1 = f2
    · rw [if_pos hp] at hi
      cases hi
    · rw [if_neg hp] at hi
      by_cases he : c1.allFiles = [] ∧ c2.allFiles = []
      · rw [if_pos he] at hi
        cases hi
      · rw [if_neg he, if_pos hEC] at hi
        cases hi
        rfl
  · intro hp hne
    unfold compareFoldersClassify
    rw [if_neg hp, if_neg (fun h => hne h.1), if_pos hEC]

/-- C2 counterexample: two (path-distinct) folders with no files and no
subfolders satisfy the ExactComplete predicate, yet the classification
produces no issue, contradicting the claim that such a pair always yields
an ExactComplete issue. -/
theorem spec_C2_cex :
    isExactCompleteDuplicate ComparisonMode.Quick emptyFC emptyFC = true ∧
    compareFoldersClassify ComparisonMode.Quick "/a" "/b" emptyFC emptyFC =
      none := by
  exact ⟨by decide, by decide⟩

/-- C2 witness: a concrete nonempty ExactComplete pair is classified as
ExactComplete. -/
theorem spec_C2_witness :
    compareFoldersClassify ComparisonMode.Quick "/a" "/b" oneFileFC oneFileFC =
      some (mkIssue DuplicateType.ExactComplete "/a" "/b" 1
        (oneFileFC.allFiles.length : Int) (oneFileFC.allFiles.length : Int)
        (min oneFileFC.totalSize oneFileFC.totalSize) "High") :=
  (spec_C2 ComparisonMode.Quick "/a" "/b" oneFileFC oneFileFC (by decide)).2
    (by decide) (by decide)

/-- C6: in Deep mode the partial hash digests exactly the first
min(fileSize, 16384) bytes of the file, followed by the last 16384 bytes
if and only if the file is strictly larger than 32768 bytes; for files of
at most 32 KiB only the initial chunk is digested and the last-window read
is skipped. -/
theorem spec_C6 (file : List Nat) :
    calculatePartHashData file =
      file.take (min file.length PARTIAL_HASH_SIZE) ++
        (if 32768 < file.length then
          file.drop (file.length - PARTIAL_HASH_SIZE) else []) ∧
    (lastWindowRead file.length = true ↔ 32768 < file.length) ∧
    (file.length ≤ 32768 →
      calculatePartHashData file =
        file.take (min file.length PARTIAL_HASH_SIZE) ∧
      lastWindowRead file.length = false) := by
  have htake : file.take (min file.length PARTIAL_HASH_SIZE) =
      file.take PARTIAL_HASH_SIZE := by
    rcases le_total file.length PARTIAL_HASH_SIZE with h | h
    · rw [min_eq_left h, List.take_length, List.take_of_length_le h]
    · rw [min_eq_right h]
  refine ⟨?_, ?_, ?_⟩
  · unfold calculatePartHashData
    rw [htake]
    norm_num [PARTIAL_HASH_SIZE]
  · unfold lastWindowRead
    norm_num [PARTIAL_HASH_SIZE]
  · intro hle
    constructor
    · unfold calculatePartHashData
      rw [htake, if_neg (by simp [PARTIAL_HASH_SIZE]; omega), List.append_nil]
    · unfold lastWindowRead
      simp [PARTIAL_HASH_SIZE]
      omega

/-- C6 witness: a three-byte file contributes only its initial chunk. -/
theorem spec_C6_witness :
    calculatePartHashData [1, 2, 3] =
      [1, 2, 3].take (min ([1, 2, 3] : List Nat).length PARTIAL_HASH_SIZE) ∧
    lastWindowRead ([1, 2, 3] : List Nat).length = false :=
  (spec_C6 [1, 2, 3]).2.2 (by norm_num)

/-- C7: for folders with non-empty content-key sets the similarity is in
[0, 1]; it equals 1 iff the two key sets are equal and 0 iff they are
disjoint. -/
theorem spec_C7 (mode : ComparisonMode) (c1 c2 : FolderContent)
    (h1 : c1.allFiles ≠ []) (h2 : c2.allFiles ≠ []) :
    0 ≤ calculateFileSimilarity mode c1 c2 ∧
    calculateFileSimilarity mode c1 c2 ≤ 1 ∧
    (calculateFileSimilarity mode c1 c2 = 1 ↔
      signatureFinset mode c1 = signatureFinset mode c2) ∧
    (calculateFileSimilarity mode c1 c2 = 0 ↔
      signatureFinset mode c1 ∩ signatureFinset mode c2 = ∅) := by
  unfold calculateFileSimilarity
  rw [if_neg (by tauto), if_neg (by tauto)]
  have hne1 : (signatureFinset mode c1).Nonempty := signatureFinset_nonempty h1
  have huni : (signatureFinset mode c1 ∪ signatureFinset mode c2).Nonempty :=
    hne1.mono Finset.subset_union_left
  have hcardpos : 0 <
      ((signatureFinset mode c1 ∪ signatureFinset mode c2).card : ℚ) := by
    rw [Nat.cast_pos]
    exact Finset.card_pos.2 huni
  have hsub : signatureFinset mode c1 ∩ signatureFinset mode c2 ⊆
      signatureFinset mode c1 ∪ signatureFinset mode c2 :=
    Finset.inter_subset_union
  rw [if_neg (Finset.nonempty_iff_ne_empty.1 huni)]
  refine ⟨?_, ?_, ?_, ?_⟩
  · exact div_nonneg (Nat.cast_nonneg _) (le_of_lt hcardpos)
  · rw [div_le_one hcardpos]
    exact_mod_cast Finset.card_le_card hsub
  · rw [div_eq_one_iff_eq (ne_of_gt hcardpos)]
    constructor
    · intro hcc
      have hc : (signatureFinset mode c1 ∩ signatureFinset mode c2).card =
          (signatureFinset mode c1 ∪ signatureFinset mode c2).card := by
        exact_mod_cast hcc
      have heq : signatureFinset mode c1 ∩ signatureFinset mode c2 =
          signatureFinset mode c1 ∪ signatureFinset mode c2 :=
        Finset.eq_of_subset_of_card_le hsub (le_of_eq hc.symm)
      apply Finset.Subset.antisymm
      · intro x hx
        have hm : x ∈ signatureFinset mode c1 ∪ signatureFinset mode c2 :=
          Finset.mem_union_left _ hx
        rw [← heq] at hm
        exact (Finset.mem_inter.1 hm).2
      · intro x hx
        have hm : x ∈ signatureFinset mode c1 ∪ signatureFinset mode c2 :=
          Finset.mem_union_right _ hx
        rw [← heq] at hm
        exact (Finset.mem_inter.1 hm).1
    · intro hss
      rw [hss, Finset.inter_self, Finset.union_self]
  · rw [div_eq_zero_iff]
    constructor
    · rintro (hc | hc)
      · have hc0 : (signatureFinset mode c1 ∩ signatureFinset mode c2).card = 0 := by
          exact_mod_cast hc
        exact Finset.card_eq_zero.1 hc0
      · exact absurd hc (ne_of_gt hcardpos)
    · intro hint
      left
      rw [hint]
      simp

/-- C7 witness: two concrete one-file folders with disjoint key sets. -/
theorem spec_C7_witness :
    0 ≤ calculateFileSimilarity ComparisonMode.Quick oneFileFC oneSameFC ∧
    calculateFileSimilarity ComparisonMode.Quick oneFileFC oneSameFC ≤ 1 ∧
    (calculateFileSimilarity ComparisonMode.Quick oneFileFC oneSameFC = 1 ↔
      signatureFinset ComparisonMode.Quick oneFileFC =
        signatureFinset ComparisonMode.Quick oneSameFC) ∧
    (calculateFileSimilarity ComparisonMode.Quick oneFileFC oneSameFC = 0 ↔
      signatureFinset ComparisonMode.Quick oneFileFC ∩
        signatureFinset ComparisonMode.Quick oneSameFC = ∅) :=
  spec_C7 ComparisonMode.Quick oneFileFC oneSameFC (by decide) (by decide)

/-- C8 (amended): when the two folders are not both file-empty, have
distinct paths, and match neither exact rule, a similarity of at least
0.90 produces a PartialDuplicate issue of severity Low with
`duplicateFiles = round(sim * max(counts))` and
`wastedSpace = round(sim * min(totalSizes))`; and any pair whose
similarity is strictly below 0.90 produces no issue at all (this part
holds unconditionally).  (A pair of file-empty folders has similarity 1
but is skipped before the partial rule, so the not-both-empty hypothesis
is necessary.) -/
theorem spec_C8 (mode : ComparisonMode) (f1 f2 : String) (c1 c2 : FolderContent)
    (hne : ¬ (c1.allFiles = [] ∧ c2.allFiles = []))
    (hEC : isExactCompleteDuplicate mode c1 c2 = false)
    (hEFO : isExactFilesOnlyDuplicate mode c1 c2 = false)
    (hp : f1 ≠ f2) :
    (PARTIAL_DUPLICATE_THRESHOLD ≤ calculateFileSimilarity mode c1 c2 →
      compareFoldersClassify mode f1 f2 c1 c2 =
        some (mkIssue DuplicateType.PartialDuplicate f1 f2
          (calculateFileSimilarity mode c1 c2)
          (max (c1.allFiles.length : Int) (c2.allFiles.length : Int))
          (qRound (calculateFileSimilarity mode c1 c2 *
            (max (c1.allFiles.length : Int) (c2.allFiles.length : Int) : ℚ)))
          (qRound (calculateFileSimilarity mode c1 c2 *
            (min c1.totalSize c2.totalSize : ℚ))) "Low")) ∧
    (∀ (mode' : ComparisonMode) (f1' f2' : String) (c1' c2' : FolderContent),
      calculateFileSimilarity mode' c1' c2' < PARTIAL_DUPLICATE_THRESHOLD →
      compareFoldersClassify mode' f1' f2' c1' c2' = none) := by
  constructor
  · intro hth
    unfold compareFoldersClassify
    rw [if_neg hp, if_neg hne, if_neg (by simp [hEC]), if_neg (by simp [hEFO]),
      if_pos hth]
  · intro mode' f1' f2' c1' c2' hlt
    exact classify_none_of_lt hlt

/-- C8 counterexample: a file-empty folder with one subfolder against a
fully empty folder: similarity is 1 (≥ 0.90), neither exact rule matches,
yet no issue is produced (the skip rule fires), contradicting the claim as
stated. -/
theorem spec_C8_cex :
    PARTIAL_DUPLICATE_THRESHOLD ≤
      calculateFileSimilarity ComparisonMode.Quick subOnlyFC emptyFC ∧
    isExactCompleteDuplicate ComparisonMode.Quick subOnlyFC emptyFC = false ∧
    isExactFilesOnlyDuplicate ComparisonMode.Quick subOnlyFC emptyFC = false ∧
    compareFoldersClassify ComparisonMode.Quick "/a" "/b" subOnlyFC emptyFC =
      none := by
  refine ⟨?_, by decide, by decide, by decide⟩
  have hs : calculateFileSimilarity ComparisonMode.Quick subOnlyFC emptyFC = 1 :=
    rfl
  rw [hs]
  rw [threshold_eq]; norm_num

/-- C8 witness: a two-file folder and a one-file folder with identical key
sets (similarity 1) yield a PartialDuplicate issue; a pair with similarity
0 yields none. -/
theorem spec_C8_witness :
    (∃ i, compareFoldersClassify ComparisonMode.Quick "/a" "/b" twoSameFC
        oneSameFC = some i ∧ i.type = DuplicateType.PartialDuplicate) ∧
    compareFoldersClassify ComparisonMode.Quick "/x" "/y" oneFileFC emptyFC =
      none := by
  have hsim : calculateFileSimilarity ComparisonMode.Quick twoSameFC oneSameFC = 1 :=
    calcSim_eq_one_of_finset_eq (by decide) (by decide) (by decide)
  have hz : calculateFileSimilarity ComparisonMode.Quick oneFileFC emptyFC = 0 :=
    rfl
  constructor
  · exact ⟨_, (spec_C8 ComparisonMode.Quick "/a" "/b" twoSameFC oneSameFC
      (by decide) (by decide) (by decide) (by decide)).1
      (by rw [hsim]; rw [threshold_eq]; norm_num), rfl⟩
  · exact (spec_C8 ComparisonMode.Quick "/a" "/b" twoSameFC oneSameFC
      (by decide) (by decide) (by decide) (by decide)).2
      ComparisonMode.Quick "/x" "/y" oneFileFC emptyFC
      (by rw [hz]; rw [threshold_eq]; norm_num)

/-- C3 (amended): with fewer than two expanded folders, `startAnalysis`
fails fast with the insufficient-folders outcome and never reaches the
analysis pipeline: the folder content cache, the persisted cache file and
the running flag are unchanged — but the duplicate-issue result set is
cleared and the current mode is overwritten, because `startAnalysis` runs
`clearResults` before the folder-count check. -/
theorem spec_C3 (fs : FileSystem) (mt : ModTimes) (hasProject : Bool)
    (mode : ComparisonMode) (folders : List String) (s : AnalyzerState)
    (disk : Option CacheFile) (gas : Nat) (h : folders.length < 2) :
    startAnalysis fs mt hasProject mode folders s disk gas =
      ({ s with currentMode := mode, duplicateIssues := [] }, disk,
        RunOutcome.insufficientFolders) := by
  simp only [startAnalysis, clearResults]
  rw [if_pos h]

/-- C3 counterexample: with a nonempty prior result list, the failed call
clears it — the analyzer state is mutated, contradicting the claim that
the result set is unchanged. -/
theorem spec_C3_cex :
    (startAnalysis fsThree mtZero true ComparisonMode.Quick ["/a"]
      { currentMode := ComparisonMode.Quick,
        duplicateIssues := [sampleIssue], folderContentCache := [],
        analysisRunning := false } none 0).1 ≠
      { currentMode := ComparisonMode.Quick,
        duplicateIssues := [sampleIssue], folderContentCache := [],
        analysisRunning := false } := by
  intro h
  have h2 := congrArg (fun st => st.duplicateIssues.length) h
  simp [startAnalysis, clearResults] at h2

/-- C3 witness: a concrete failed start returning the cleared state. -/
theorem spec_C3_witness :
    startAnalysis fsThree mtZero true ComparisonMode.Quick ["/a"]
      (idleState ComparisonMode.Deep []) none 0 =
      ({ idleState ComparisonMode.Deep [] with
          currentMode := ComparisonMode.Quick, duplicateIssues := [] }, none,
        RunOutcome.insufficientFolders) :=
  spec_C3 fsThree mtZero true ComparisonMode.Quick ["/a"]
    (idleState ComparisonMode.Deep []) none 0 (by norm_num)

theorem performAnalysis_cases (fs : FileSystem) (mt : ModTimes)
    (hasProject : Bool) (folders : List String) (s : AnalyzerState)
    (disk : Option CacheFile) (gas : Nat) :
    (performAnalysis fs mt hasProject folders s disk gas).2.2 =
      RunOutcome.completed ∨
    ((performAnalysis fs mt hasProject folders s disk gas).2.1 = disk ∧
     (performAnalysis fs mt hasProject folders s disk gas).1.analysisRunning
       = false) := by
  unfold performAnalysis
  dsimp only
  split
  · right
    exact ⟨rfl, rfl⟩
  · split
    · right
      exact ⟨rfl, rfl⟩
    · split
      · right
        exact ⟨rfl, rfl⟩
      · left
        rfl

/-- C4 (amended): every run that ends cancelled (during the counting,
scanning or comparing phase) leaves the persisted cache file exactly as it
was — `saveFolderContentCache` only runs on completion — and clears the
running flag; the issues accumulated before the cancellation, however, are
NOT discarded: they remain in the result set until the next
`startAnalysis` clears them (see the counterexample). -/
theorem spec_C4 (fs : FileSystem) (mt : ModTimes) (hasProject : Bool)
    (mode : ComparisonMode) (folders : List String) (s : AnalyzerState)
    (disk : Option CacheFile) (gas : Nat)
    (h : (startAnalysis fs mt hasProject mode folders s disk gas).2.2 =
      RunOutcome.cancelled) :
    (startAnalysis fs mt hasProject mode folders s disk gas).2.1 = disk ∧
    (startAnalysis fs mt hasProject mode folders s disk gas).1.analysisRunning
      = false := by
  by_cases hlen : folders.length < 2
  · exfalso
    simp only [startAnalysis, clearResults] at h
    rw [if_pos hlen] at h
    simp at h
  · have hstart : startAnalysis fs mt hasProject mode folders s disk gas =
        performAnalysis fs mt hasProject folders
          (clearResults { s with currentMode := mode }) disk gas := by
      simp only [startAnalysis]
      rw [if_neg hlen]
    rw [hstart] at h ⊢
    rcases performAnalysis_cases fs mt hasProject folders
      (clearResults { s with currentMode := mode }) disk gas with hc | hok
    · rw [h] at hc
      simp at hc
    · exact hok

/-- C4 counterexample: a three-folder run cancelled right after the first
pair produced an issue ends Cancelled with the persisted cache file
untouched, but the accumulated issue is still in the result set — the
claim that a cancelled run's result set is empty is false. -/
theorem spec_C4_cex :
    (startAnalysis fsThree mtZero true ComparisonMode.Quick
      ["/a", "/b", "/c"] (idleState ComparisonMode.Quick [])
      (some ⟨"FolderContentCache_v2.0", 0, []⟩) 7).2.2 =
      RunOutcome.cancelled ∧
    (startAnalysis fsThree mtZero true ComparisonMode.Quick
      ["/a", "/b", "/c"] (idleState ComparisonMode.Quick [])
      (some ⟨"FolderContentCache_v2.0", 0, []⟩) 7).1.duplicateIssues.length
      = 1 ∧
    (startAnalysis fsThree mtZero true ComparisonMode.Quick
      ["/a", "/b", "/c"] (idleState ComparisonMode.Quick [])
      (some ⟨"FolderContentCache_v2.0", 0, []⟩) 7).2.1 =
      some ⟨"FolderContentCache_v2.0", 0, []⟩ := by
  exact ⟨by decide, by decide, by decide⟩

/-- C4 witness: the cancelled run above keeps the disk cache unchanged. -/
theorem spec_C4_witness :
    (startAnalysis fsThree mtZero true ComparisonMode.Quick
      ["/a", "/b", "/c"] (idleState ComparisonMode.Quick [])
      (some ⟨"FolderContentCache_v2.0", 0, []⟩) 7).2.1 =
      some ⟨"FolderContentCache_v2.0", 0, []⟩ ∧
    (startAnalysis fsThree mtZero true ComparisonMode.Quick
      ["/a", "/b", "/c"] (idleState ComparisonMode.Quick [])
      (some ⟨"FolderContentCache_v2.0", 0, []⟩) 7).1.analysisRunning
      = false :=
  spec_C4 fsThree mtZero true ComparisonMode.Quick ["/a", "/b", "/c"]
    (idleState ComparisonMode.Quick [])
    (some ⟨"FolderContentCache_v2.0", 0, []⟩) 7 (by decide)

/-- C5 (code evaluated at the failing input): when cancellation is
observed mid-scan (budget of one checkpoint, folder `/a` holding two
image files), the partially built FolderContent is NOT discarded:
`analyzeFolderContent` returns it (holding only `a.jpg`) and
`compareFolders` stores it into the folder content cache.  A scan with
enough budget returns both files, showing the cached entry is a partial
truncation, not the folder's content. -/
theorem spec_C5 :
    (analyzeFolderContent fsTwoFiles ComparisonMode.Quick "/a"
      ⟨1, true⟩).1.allFiles = ["a.jpg"] ∧
    (analyzeFolderContent fsTwoFiles ComparisonMode.Quick "/a"
      ⟨1, true⟩).2.running = false ∧
    lookupKV (compareFolders fsTwoFiles ComparisonMode.Quick "/a" "/b"
      [] [] ⟨1, true⟩).1 "/a" =
      some ((analyzeFolderContent fsTwoFiles ComparisonMode.Quick "/a"
        ⟨1, true⟩).1) ∧
    (analyzeFolderContent fsTwoFiles ComparisonMode.Quick "/a"
      ⟨100, true⟩).1.allFiles = ["a.jpg", "b.jpg"] := by
  exact ⟨by decide, by decide, by decide, by decide⟩

/-- C9 (code evaluated at the failing input): `loadFolderContentCache`
never consults the mode marker it reads from the cache file header —
loading is invariant under changing the marker — and entries saved by a
Quick-mode run (empty partialHash fields) are loaded and then used for
signature comparison in a Deep-mode run: with the Quick cache the pair
`/a`,`/b` is reported ExactComplete in Deep mode, whereas classifying the
genuinely Deep-scanned contents of the same folders (differing hashes)
reports nothing. -/
theorem spec_C9 :
    (∀ (file : CacheFile) (m : Int) (fs : FileSystem) (mt : ModTimes),
      loadFolderContentCache { file with mode := m } fs mt =
        loadFolderContentCache file fs mt) ∧
    quickCacheFile.mode = modeToInt ComparisonMode.Quick ∧
    modeToInt ComparisonMode.Quick ≠ modeToInt ComparisonMode.Deep ∧
    ((startAnalysis fsModePair mtZero true ComparisonMode.Deep ["/a", "/b"]
      (idleState ComparisonMode.Deep
        (loadFolderContentCache quickCacheFile fsModePair mtZero)) none
      100).1.duplicateIssues.map (fun i => i.type)) =
      [DuplicateType.ExactComplete] ∧
    compareFoldersClassify ComparisonMode.Deep "/a" "/b"
      (analyzeFolderContent fsModePair ComparisonMode.Deep "/a" ⟨100, true⟩).1
      (analyzeFolderContent fsModePair ComparisonMode.Deep "/b" ⟨100, true⟩).1
      = none := by
  refine ⟨?_, rfl, by decide, by decide, ?_⟩
  · intro file m fs mt
    cases file
    rfl
  · apply classify_none_of_lt
    have h0 : calculateFileSimilarity ComparisonMode.Deep
        (analyzeFolderContent fsModePair ComparisonMode.Deep "/a"
          ⟨100, true⟩).1
        (analyzeFolderContent fsModePair ComparisonMode.Deep "/b"
          ⟨100, true⟩).1 = 0 :=
      calcSim_eq_zero_of_disjoint (by decide) (by decide) (by decide)
    rw [h0]
    rw [threshold_eq]; norm_num

theorem containsKey_map_replace {α : Type} (m : List (String × α))
    (k : String) (v : α) (q : String) :
    containsKey (m.map (fun kv => if kv.1 = k then (k, v) else kv)) q =
      containsKey m q := by
  induction m with
  | nil => rfl
  | cons a rest ih =>
    simp only [List.map_cons, containsKey, List.any_cons] at *
    rw [ih]
    by_cases h : a.1 = k
    · rw [if_pos h, h]
    · rw [if_neg h]

theorem containsKey_insertKV {α : Type} (m : List (String × α))
    (k : String) (v : α) (q : String) :
    containsKey (insertKV m k v) q = true ↔
      (q = k ∨ containsKey m q = true) := by
  unfold insertKV
  by_cases hc : containsKey m k
  · rw [if_pos hc, containsKey_map_replace]
    constructor
    · exact Or.inr
    · rintro (rfl | h)
      · exact hc
      · exact h
  · rw [if_neg hc]
    simp only [containsKey, List.any_append, List.any_cons, List.any_nil,
      Bool.or_eq_true, decide_eq_true_eq]
    constructor
    · rintro (h | h | h)
      · exact Or.inr h
      · exact Or.inl h.symm
      · simp at h
    · rintro (h | h)
      · exact Or.inr (Or.inl h.symm)
      · exact Or.inl h

theorem mem_insertKV {α : Type} {m : List (String × α)} {k : String} {v : α}
    {p : String} {c : α} (h : (p, c) ∈ insertKV m k v) :
    (p, c) ∈ m ∨ ((p, c) = (k, v)) := by
  unfold insertKV at h
  by_cases hc : containsKey m k
  · rw [if_pos hc] at h
    rcases List.mem_map.1 h with ⟨kv, hkv, heq⟩
    by_cases hk : kv.1 = k
    · rw [if_pos hk] at heq
      exact Or.inr heq.symm
    · rw [if_neg hk] at heq
      exact Or.inl (heq ▸ hkv)
  · rw [if_neg hc] at h
    rcases List.mem_append.1 h with h | h
    · exact Or.inl h
    · exact Or.inr (List.mem_singleton.1 h)

theorem FCInv_emptyFC : FCInv emptyFC := by
  intro q
  simp [emptyFC, containsKey]

theorem scanFiles_inv (mode : ComparisonMode) (files : List (String × FileData))
    (rel : String) (c : FolderContent) (r : RunState) (h : FCInv c) :
    FCInv (scanFiles mode files rel c r).1 := by
  induction files generalizing c r with
  | nil => exact h
  | cons f rest ih =>
    rw [scanFiles]
    split
    · exact h
    · split
      · apply ih
        intro q
        simp only [containsKey_insertKV, List.mem_append, List.mem_singleton]
        rw [h q]
        tauto
      · exact ih c _ h

mutual

theorem scanTree_inv (mode : ComparisonMode) (t : DirTree) (rel : String)
    (c : FolderContent) (r : RunState) (h : FCInv c) :
    FCInv (scanTree mode t rel c r).1 := by
  cases t with
  | node files subdirs =>
    rw [scanTree]
    split
    · exact scanSubdirs_inv mode subdirs rel _ _
        (scanFiles_inv mode files rel c r h)
    · exact scanFiles_inv mode files rel c r h

theorem scanSubdirs_inv (mode : ComparisonMode)
    (l : List (String × DirTree)) (rel : String) (c : FolderContent)
    (r : RunState) (h : FCInv c) :
    FCInv (scanSubdirs mode l rel c r).1 := by
  cases l with
  | nil => exact h
  | cons nt rest =>
    rw [scanSubdirs]
    split
    · exact h
    · exact scanSubdirs_inv mode rest rel _ _
        (scanTree_inv mode nt.2 _ _ _ h)

end

theorem analyzeFolderContent_inv (fs : FileSystem) (mode : ComparisonMode)
    (p : String) (r : RunState) :
    FCInv (analyzeFolderContent fs mode p r).1 := by
  unfold analyzeFolderContent
  split
  · exact FCInv_emptyFC
  · exact scanTree_inv mode _ "" emptyFC r FCInv_emptyFC

theorem CacheInv_insertKV {cache : CacheMap} {k : String} {v : FolderContent}
    (h : CacheInv cache) (hv : FCInv v) : CacheInv (insertKV cache k v) := by
  intro p c hmem
  rcases mem_insertKV hmem with hm | he
  · exact h p c hm
  · rw [Prod.mk.injEq] at he
    rw [he.2]
    exact hv

theorem CacheInv_nil : CacheInv [] := by
  intro p c h
  exact absurd h (List.not_mem_nil _)

theorem foldl_insert_contains {α : Type} (l : List (String × α)) :
    ∀ (acc : List (String × α)) (q : String),
    containsKey (l.foldl (fun m kv => insertKV m kv.1 kv.2) acc) q = true ↔
      (containsKey acc q = true ∨ containsKey l q = true) := by
  induction l with
  | nil =>
    intro acc q
    simp [containsKey]
  | cons kv rest ih =>
    intro acc q
    simp only [List.foldl_cons]
    rw [ih, containsKey_insertKV]
    simp only [containsKey, List.any_cons, Bool.or_eq_true, decide_eq_true_eq]
    constructor
    · rintro ((h | h) | h)
      · exact Or.inr (Or.inl h.symm)
      · exact Or.inl h
      · exact Or.inr (Or.inr h)
    · rintro (h | h | h)
      · exact Or.inl (Or.inr h)
      · exact Or.inl (Or.inl h.symm)
      · exact Or.inr h

theorem FCInv_contentOfEntry {e : CacheEntryRec}
    (hk : ∀ q, containsKey e.fileInfoList q = true ↔ q ∈ e.allFiles) :
    FCInv (contentOfEntry e) := by
  intro q
  have hc := foldl_insert_contains e.fileInfoList [] q
  have h0 : containsKey ([] : List (String × FileInfo)) q = false := rfl
  rw [h0] at hc
  simp only [Bool.false_eq_true, false_or] at hc
  unfold contentOfEntry
  dsimp only
  rw [hc]
  exact hk q

theorem save_entries_inv {mode : ComparisonMode} {mt : ModTimes}
    {cache : CacheMap} (h : CacheInv cache) :
    ∀ e ∈ (saveFolderContentCache mode mt cache).entries,
      FCInv (contentOfEntry e) := by
  intro e he
  unfold saveFolderContentCache at he
  dsimp only at he
  rcases List.mem_map.1 he with ⟨pc, hpc, rfl⟩
  apply FCInv_contentOfEntry
  intro q
  exact h pc.1 pc.2 hpc q

theorem foldl_cacheInv {β : Type} (es : List β) (f : CacheMap → β → CacheMap)
    (hstep : ∀ acc, CacheInv acc → ∀ e ∈ es, CacheInv (f acc e)) :
    ∀ acc, CacheInv acc → CacheInv (es.foldl f acc) := by
  induction es with
  | nil =>
    intro acc h
    exact h
  | cons e rest ih =>
    intro acc h
    simp only [List.foldl_cons]
    exact ih (fun acc' h' e' he' => hstep acc' h' e'
        (List.mem_cons_of_mem _ he')) _
      (hstep acc h e (List.mem_cons_self _ _))

theorem load_inv (file : CacheFile) (fs : FileSystem) (mt : ModTimes)
    (hf : ∀ e ∈ file.entries, FCInv (contentOfEntry e)) :
    CacheInv (loadFolderContentCache file fs mt) := by
  unfold loadFolderContentCache
  split
  · exact CacheInv_nil
  · apply foldl_cacheInv _ _ _ _ CacheInv_nil
    intro acc hacc e he
    dsimp only
    split
    · exact CacheInv_insertKV hacc (hf e he)
    · exact hacc

theorem ensureCached_inv (fs : FileSystem) (mode : ComparisonMode)
    (p : String) (cache : CacheMap) (r : RunState) (h : CacheInv cache) :
    CacheInv (ensureCached fs mode p cache r).1 := by
  unfold ensureCached
  split
  · exact h
  · exact CacheInv_insertKV h (analyzeFolderContent_inv fs mode p r)

theorem compareFolders_cacheInv (fs : FileSystem) (mode : ComparisonMode)
    (f1 f2 : String) (cache : CacheMap) (issues : List DuplicateIssue)
    (r : RunState) (h : CacheInv cache) :
    CacheInv (compareFolders fs mode f1 f2 cache issues r).1 := by
  unfold compareFolders
  split
  · exact h
  · dsimp only
    split
    · exact ensureCached_inv fs mode f2 _ _ (ensureCached_inv fs mode f1 _ _ h)
    · exact ensureCached_inv fs mode f2 _ _ (ensureCached_inv fs mode f1 _ _ h)

theorem pairsInner_cacheInv (fs : FileSystem) (mode : ComparisonMode)
    (f1 : String) (l : List String) :
    ∀ (cache : CacheMap) (issues : List DuplicateIssue) (r : RunState),
    CacheInv cache → CacheInv (pairsInner fs mode f1 l cache issues r).1 := by
  induction l with
  | nil =>
    intro cache issues r h
    exact h
  | cons f2 rest ih =>
    intro cache issues r h
    rw [pairsInner]
    split
    · exact h
    · exact ih _ _ _ (compareFolders_cacheInv fs mode f1 f2 cache issues _ h)

theorem analyzeFolderPairs_cacheInv (fs : FileSystem) (mode : ComparisonMode)
    (l : List String) :
    ∀ (cache : CacheMap) (issues : List DuplicateIssue) (r : RunState),
    CacheInv cache →
    CacheInv (analyzeFolderPairs fs mode l cache issues r).1 := by
  induction l with
  | nil =>
    intro cache issues r h
    exact h
  | cons f1 rest ih =>
    intro cache issues r h
    rw [analyzeFolderPairs]
    split
    · exact h
    · dsimp only
      split
      · exact ih _ _ _ (pairsInner_cacheInv fs mode f1 rest cache issues _ h)
      · exact pairsInner_cacheInv fs mode f1 rest cache issues _ h

theorem performAnalysis_cacheInv (fs : FileSystem) (mt : ModTimes)
    (hasProject : Bool) (folders : List String) (s : AnalyzerState)
    (disk : Option CacheFile) (gas : Nat)
    (h : CacheInv s.folderContentCache) :
    CacheInv
      (performAnalysis fs mt hasProject folders s disk gas).1.folderContentCache := by
  unfold performAnalysis
  dsimp only
  split
  · exact h
  · split
    · exact h
    · split
      · exact analyzeFolderPairs_cacheInv fs s.currentMode folders _ _ _ h
      · exact analyzeFolderPairs_cacheInv fs s.currentMode folders _ _ _ h

theorem startAnalysis_cacheInv (fs : FileSystem) (mt : ModTimes)
    (hasProject : Bool) (mode : ComparisonMode) (folders : List String)
    (s : AnalyzerState) (disk : Option CacheFile) (gas : Nat)
    (h : CacheInv s.folderContentCache) :
    CacheInv
      (startAnalysis fs mt hasProject mode folders s disk gas).1.folderContentCache := by
  unfold startAnalysis
  dsimp only
  split
  · exact h
  · exact performAnalysis_cacheInv fs mt hasProject folders _ disk gas h

/-- C10: every FolderContent produced by the recursive scan satisfies the
invariant that the key set of its fileInfo mapping equals the set of paths
in its allFiles list (even when the scan is interrupted); every entry
reconstructed by a cache load from a file written by the cache save
satisfies it whenever the saved cache did; and a whole `startAnalysis`
run, however it ends, preserves the invariant for every cached entry. -/
theorem spec_C10 :
    (∀ (fs : FileSystem) (mode : ComparisonMode) (p : String) (r : RunState),
      FCInv (analyzeFolderContent fs mode p r).1) ∧
    (∀ (mode : ComparisonMode) (mt mt2 : ModTimes) (fs : FileSystem)
        (cache : CacheMap), CacheInv cache →
      CacheInv (loadFolderContentCache (saveFolderContentCache mode mt cache)
        fs mt2)) ∧
    (∀ (fs : FileSystem) (mt : ModTimes) (hasProject : Bool)
        (mode : ComparisonMode) (folders : List String) (s : AnalyzerState)
        (disk : Option CacheFile) (gas : Nat),
      CacheInv s.folderContentCache →
      CacheInv (startAnalysis fs mt hasProject mode folders s disk
        gas).1.folderContentCache) := by
  refine ⟨analyzeFolderContent_inv, ?_, startAnalysis_cacheInv⟩
  intro mode mt mt2 fs cache h
  exact load_inv _ fs mt2 (save_entries_inv h)

/-- C10 witness: concrete instances of all three parts. -/
theorem spec_C10_witness :
    FCInv (analyzeFolderContent fsTwoFiles ComparisonMode.Quick "/a"
      ⟨100, true⟩).1 ∧
    CacheInv (loadFolderContentCache
      (saveFolderContentCache ComparisonMode.Quick mtZero []) fsTwoFiles
      mtZero) ∧
    CacheInv (startAnalysis fsThree mtZero true ComparisonMode.Quick
      ["/a", "/b", "/c"] (idleState ComparisonMode.Quick []) none
      100).1.folderContentCache :=
  ⟨spec_C10.1 fsTwoFiles ComparisonMode.Quick "/a" ⟨100, true⟩,
   spec_C10.2.1 ComparisonMode.Quick mtZero mtZero fsTwoFiles [] CacheInv_nil,
   spec_C10.2.2 fsThree mtZero true ComparisonMode.Quick ["/a", "/b", "/c"]
     (idleState ComparisonMode.Quick []) none 100 CacheInv_nil⟩
